import Mathlib

/-!
Verification of the CozyLife local-pull TCP client
(`custom_components/hass_cozylife_local_pull/tcp_client.py` and `switch.py`).

The development shallowly embeds the protocol codec (`json.dumps` /
`json.loads` restricted to the protocol's value domain: null, booleans,
integers, strings, arrays, objects — floats do not occur on this wire
format), the message builder `_get_package`, the listener's
`_process_message`, `control` / `query`, `_send_receiver`,
`_device_info` together with the reconnection loop of `_reconnect`,
and the `CozyLifeSwitch` state refresh.

Python dicts are modelled as association lists with unique keys kept in
insertion order (`Dict`); `dict.update` is `dictUpdate` (replace the value
in place for a known key, append new keys), which is exactly CPython's
behaviour.  Thread interleavings relevant to the reconnection guard are
modelled as a small labelled transition system (`ReconState`).
-/

/-- JSON values as they occur on this wire protocol.  Numbers are
integers: the device protocol carries only integral numbers, and the
encoder under verification never emits floats. -/
inductive Json where
  | null : Json
  | bool (b : Bool) : Json
  | num (n : Int) : Json
  | str (s : String) : Json
  | arr (xs : List Json) : Json
  | obj (fields : List (String × Json)) : Json

mutual

/-- Decidable equality on JSON values. -/
def Json.decEq : (a b : Json) → Decidable (a = b)
  | .null, .null => isTrue rfl
  | .null, .bool _ => isFalse nofun
  | .null, .num _ => isFalse nofun
  | .null, .str _ => isFalse nofun
  | .null, .arr _ => isFalse nofun
  | .null, .obj _ => isFalse nofun
  | .bool _, .null => isFalse nofun
  | .bool a, .bool b =>
    if h : a = b then isTrue (by rw [h]) else isFalse (fun hh => h (Json.bool.inj hh))
  | .bool _, .num _ => isFalse nofun
  | .bool _, .str _ => isFalse nofun
  | .bool _, .arr _ => isFalse nofun
  | .bool _, .obj _ => isFalse nofun
  | .num _, .null => isFalse nofun
  | .num _, .bool _ => isFalse nofun
  | .num a, .num b =>
    if h : a = b then isTrue (by rw [h]) else isFalse (fun hh => h (Json.num.inj hh))
  | .num _, .str _ => isFalse nofun
  | .num _, .arr _ => isFalse nofun
  | .num _, .obj _ => isFalse nofun
  | .str _, .null => isFalse nofun
  | .str _, .bool _ => isFalse nofun
  | .str _, .num _ => isFalse nofun
  | .str a, .str b =>
    if h : a = b then isTrue (by rw [h]) else isFalse (fun hh => h (Json.str.inj hh))
  | .str _, .arr _ => isFalse nofun
  | .str _, .obj _ => isFalse nofun
  | .arr _, .null => isFalse nofun
  | .arr _, .bool _ => isFalse nofun
  | .arr _, .num _ => isFalse nofun
  | .arr _, .str _ => isFalse nofun
  | .arr xs, .arr ys =>
    match Json.decEqList xs ys with
    | isTrue h => isTrue (by rw [h])
    | isFalse h => isFalse (fun hh => h (Json.arr.inj hh))
  | .arr _, .obj _ => isFalse nofun
  | .obj _, .null => isFalse nofun
  | .obj _, .bool _ => isFalse nofun
  | .obj _, .num _ => isFalse nofun
  | .obj _, .str _ => isFalse nofun
  | .obj _, .arr _ => isFalse nofun
  | .obj fs, .obj gs =>
    match Json.decEqFields fs gs with
    | isTrue h => isTrue (by rw [h])
    | isFalse h => isFalse (fun hh => h (Json.obj.inj hh))

/-- Decidable equality on JSON value lists. -/
def Json.decEqList : (a b : List Json) → Decidable (a = b)
  | [], [] => isTrue rfl
  | [], _ :: _ => isFalse nofun
  | _ :: _, [] => isFalse nofun
  | x :: xs, y :: ys =>
    match Json.decEq x y with
    | isFalse h => isFalse (fun hh => h (List.cons.inj hh).1)
    | isTrue h1 =>
      match Json.decEqList xs ys with
      | isTrue h2 => isTrue (by rw [h1, h2])
      | isFalse h => isFalse (fun hh => h (List.cons.inj hh).2)

/-- Decidable equality on JSON field lists. -/
def Json.decEqFields : (a b : List (String × Json)) → Decidable (a = b)
  | [], [] => isTrue rfl
  | [], _ :: _ => isFalse nofun
  | _ :: _, [] => isFalse nofun
  | (k, v) :: xs, (k', v') :: ys =>
    if hk : k = k' then
      match Json.decEq v v' with
      | isFalse h => isFalse (fun hh => h (Prod.mk.inj (List.cons.inj hh).1).2)
      | isTrue h1 =>
        match Json.decEqFields xs ys with
        | isTrue h2 => isTrue (by rw [hk, h1, h2])
        | isFalse h => isFalse (fun hh => h (List.cons.inj hh).2)
    else isFalse (fun hh => hk (Prod.mk.inj (List.cons.inj hh).1).1)

end

instance : DecidableEq Json := Json.decEq

/-- Python dict of JSON values: association list, unique keys, insertion
order. -/
abbrev Dict := List (String × Json)

/-- Python `d[k]` / `d.get(k)` lookup (first binding; our dicts keep keys
unique). -/
def dictGet (d : Dict) (k : String) : Option Json :=
  match d with
  | [] => none
  | (k', v) :: rest => if k' = k then some v else dictGet rest k

/-- Write one key: replace the value in place if the key is present,
append otherwise (CPython dict assignment). -/
def setKey (d : Dict) (k : String) (v : Json) : Dict :=
  match d with
  | [] => [(k, v)]
  | (k', v') :: rest => if k' = k then (k', v) :: rest else (k', v') :: setKey rest k v

/-- Python `d.update(p)`: write each binding of `p` into `d` in order. -/
def dictUpdate (d : Dict) (p : Dict) : Dict :=
  p.foldl (fun acc kv => setKey acc kv.1 kv.2) d

/-- Fields of a JSON object (`none` when the value is not an object,
modelling Python's `AttributeError`/`TypeError` sites). -/
def objGet (j : Json) (k : String) : Option Json :=
  match j with
  | .obj fields => dictGet fields k
  | _ => none

/-- Python `j.get(k) is None` conflates an absent key with an explicit
JSON `null`; this getter does the same. -/
def pyGet (j : Json) (k : String) : Option Json :=
  match objGet j k with
  | some .null => none
  | r => r

/-- Python truthiness of a decoded JSON value. -/
def truthy (j : Json) : Bool :=
  match j with
  | .null => false
  | .bool b => b
  | .num n => n != 0
  | .str s => s != ""
  | .arr xs => !xs.isEmpty
  | .obj fs => !fs.isEmpty

/-- Whether the value is a JSON object (Python `type(x) is dict`). -/
def isObj (j : Json) : Bool :=
  match j with
  | .obj _ => true
  | _ => false

/-! Serialization: `json.dumps(message, separators=(',', ':'))`. -/

/-- Decimal digits of a natural number, most significant first. -/
def natChars (n : Nat) : List Char :=
  if n = 0 then ['0']
  else (Nat.digits 10 n).reverse.map (fun d => Char.ofNat (48 + d))

/-- Decimal rendering of an integer, as Python's `json.dumps` prints it. -/
def intChars (i : Int) : List Char :=
  match i with
  | .ofNat n => natChars n
  | .negSucc m => '-' :: natChars (m + 1)

/-- JSON string escaping for one character.  The protocol strings are
ASCII identifiers and digit strings; the escapes that can actually arise
there are covered (quote, backslash, and the common control characters). -/
def escChar (c : Char) : List Char :=
  if c = '"' then ['\\', '"']
  else if c = '\\' then ['\\', '\\']
  else if c = '\n' then ['\\', 'n']
  else if c = '\r' then ['\\', 'r']
  else if c = '\t' then ['\\', 't']
  else [c]

/-- Escape a whole string. -/
def escStr (s : String) : List Char :=
  (s.data.map escChar).flatten

mutual

/-- Compact JSON serialization (`json.dumps` with separators `(',', ':')`),
producing the character list of the output. -/
def dumpChars : Json → List Char
  | .null => "null".data
  | .bool true => "true".data
  | .bool false => "false".data
  | .num i => intChars i
  | .str s => '"' :: (escStr s ++ ['"'])
  | .arr [] => ['[', ']']
  | .arr (x :: xs) => '[' :: (dumpChars x ++ dumpArrRest xs ++ [']'])
  | .obj [] => ['\x7b', '\x7d']
  | .obj (f :: fs) => '\x7b' :: (dumpField f ++ dumpObjRest fs ++ ['\x7d'])

/-- Remaining array items, each preceded by a comma. -/
def dumpArrRest : List Json → List Char
  | [] => []
  | x :: xs => ',' :: (dumpChars x ++ dumpArrRest xs)

/-- One object field: quoted key, colon, value. -/
def dumpField : String × Json → List Char
  | (k, v) => '"' :: (escStr k ++ '"' :: ':' :: dumpChars v)

/-- Remaining object fields, each preceded by a comma. -/
def dumpObjRest : List (String × Json) → List Char
  | [] => []
  | f :: fs => ',' :: (dumpField f ++ dumpObjRest fs)

end

/-- Compact JSON serialization to a string. -/
def dumps (j : Json) : String := ⟨dumpChars j⟩

/-! Parsing: a model of `json.loads` on this value domain. -/

/-- JSON insignificant whitespace. -/
def isWsChar (c : Char) : Bool :=
  c = ' ' || c = '\t' || c = '\n' || c = '\r'

/-- Skip leading whitespace. -/
def skipWs : List Char → List Char
  | [] => []
  | c :: rest => if isWsChar c then skipWs rest else c :: rest

/-- Longest leading run of decimal digits. -/
def takeDigits : List Char → List Char × List Char
  | [] => ([], [])
  | c :: rest =>
    if c.isDigit then
      let p := takeDigits rest
      (c :: p.1, p.2)
    else ([], c :: rest)

/-- Numeric value of a digit run. -/
def digitsVal (ds : List Char) : Nat :=
  ds.foldl (fun a c => 10 * a + (c.toNat - 48)) 0

/-- Parse an integer literal (optional minus sign, digit run). -/
def parseNum : List Char → Option (Int × List Char)
  | [] => none
  | c :: rest =>
    if c = '-' then
      match takeDigits rest with
      | ([], _) => none
      | (ds, r) => some (-(digitsVal ds : Int), r)
    else
      match takeDigits (c :: rest) with
      | ([], _) => none
      | (ds, r) => some ((digitsVal ds : Int), r)

/-- Unescape one backslash escape. -/
def unescChar (c : Char) : Option Char :=
  if c = '"' then some '"'
  else if c = '\\' then some '\\'
  else if c = '/' then some '/'
  else if c = 'n' then some '\n'
  else if c = 'r' then some '\r'
  else if c = 't' then some '\t'
  else if c = 'b' then some '\x08'
  else if c = 'f' then some '\x0c'
  else none

/-- Parse the body of a string literal after the opening quote, up to and
including the closing quote; returns the content and the remainder. -/
def parseStrChars : List Char → Option (List Char × List Char)
  | [] => none
  | c :: rest =>
    if c = '"' then some ([], rest)
    else if c = '\\' then
      match rest with
      | [] => none
      | e :: rest2 =>
        match unescChar e with
        | none => none
        | some c2 =>
          match parseStrChars rest2 with
          | none => none
          | some (cs, r) => some (c2 :: cs, r)
    else
      match parseStrChars rest with
      | none => none
      | some (cs, r) => some (c :: cs, r)

mutual

/-- Parse one JSON value.  The fuel argument only bounds recursion depth;
`loads` supplies more fuel than any input can consume. -/
def parseValue : Nat → List Char → Option (Json × List Char)
  | 0, _ => none
  | f + 1, input =>
    match skipWs input with
    | [] => none
    | c :: rest =>
      if c = '"' then
        match parseStrChars rest with
        | none => none
        | some (cs, r) => some (.str ⟨cs⟩, r)
      else if c = '[' then
        let r2 := skipWs rest
        if r2.head? = some ']' then some (.arr [], r2.tail)
        else
          match parseArrItems f r2 with
          | none => none
          | some (js, r3) => some (.arr js, r3)
      else if c = '\x7b' then
        let r2 := skipWs rest
        if r2.head? = some '\x7d' then some (.obj [], r2.tail)
        else
          match parseObjItems f r2 with
          | none => none
          | some (fs, r3) => some (.obj (dictUpdate [] fs), r3)
      else if c = 'n' then
        match rest with
        | 'u' :: 'l' :: 'l' :: r => some (.null, r)
        | _ => none
      else if c = 't' then
        match rest with
        | 'r' :: 'u' :: 'e' :: r => some (.bool true, r)
        | _ => none
      else if c = 'f' then
        match rest with
        | 'a' :: 'l' :: 's' :: 'e' :: r => some (.bool false, r)
        | _ => none
      else
        match parseNum (c :: rest) with
        | none => none
        | some (i, r) => some (.num i, r)

/-- Parse one or more comma-separated array items and the closing
bracket. -/
def parseArrItems : Nat → List Char → Option (List Json × List Char)
  | 0, _ => none
  | f + 1, input =>
    match parseValue f input with
    | none => none
    | some (j, r) =>
      match skipWs r with
      | ',' :: r2 =>
        match parseArrItems f r2 with
        | none => none
        | some (js, r3) => some (j :: js, r3)
      | ']' :: r2 => some ([j], r2)
      | _ => none

/-- Parse one or more comma-separated object fields and the closing
brace. -/
def parseObjItems : Nat → List Char → Option (List (String × Json) × List Char)
  | 0, _ => none
  | f + 1, input =>
    match skipWs input with
    | '"' :: rest =>
      match parseStrChars rest with
      | none => none
      | some (ks, r) =>
        match skipWs r with
        | ':' :: r2 =>
          match parseValue f r2 with
          | none => none
          | some (v, r3) =>
            match skipWs r3 with
            | ',' :: r4 =>
              match parseObjItems f r4 with
              | none => none
              | some (fs, r5) => some ((⟨ks⟩, v) :: fs, r5)
            | '\x7d' :: r4 => some ([(⟨ks⟩, v)], r4)
            | _ => none
        | _ => none
    | _ => none

end

/-- Model of `json.loads`: parse one document, allowing surrounding
whitespace and rejecting trailing garbage.  Duplicate object keys are
resolved last-wins at parse time (the `dictUpdate [] _` in `parseValue`),
as CPython's dict construction does.  The fuel `2 * length + 4` exceeds
the recursion depth any input of this length can force (every two nested
calls consume at least one character). -/
def loads (s : String) : Option Json :=
  match parseValue (2 * s.length + 4) s.data with
  | none => none
  | some (j, rest) => if skipWs rest = [] then some j else none

/-! Client state and operations (`tcp_client`). -/

/-- Mutable fields of a `tcp_client` instance.  `connected` models
`_connect is not None`; identity fields hold the raw JSON values the
code assigns. -/
structure ClientState where
  device_state : Dict
  connected : Bool
  reconnecting : Bool
  listener_running : Bool
  device_id : Option Json
  device_type_code : Option Json
  pid : Option Json
  icon : Option String
  device_model_name : Option String
  dpid : List Int
  deriving DecidableEq

/-- State of a freshly constructed client (`__init__`): empty cache, all
identity fields `None`, all flags `False`.  The constructor's
`_close_connection` is a no-op on this state and `_reconnect` only spawns
a background thread. -/
def initClient : ClientState :=
  { device_state := []
    connected := false
    reconnecting := false
    listener_running := false
    device_id := none
    device_type_code := none
    pid := none
    icon := none
    device_model_name := none
    dpid := [] }

/-- Protocol command numbers. -/
def CMD_INFO : Nat := 0

/-- Query command. -/
def CMD_QUERY : Nat := 2

/-- Set command. -/
def CMD_SET : Nat := 3

/-- Device-initiated push. -/
def CMD_PUSH : Nat := 10

/-- Python `int(s)` on a string (sign and digits; the decimal forms the
protocol uses). `none` models the `ValueError`. -/
def pyInt (s : String) : Option Int :=
  match s.data with
  | [] => none
  | c :: ds =>
    if c = '-' then
      if !ds.isEmpty && ds.all (·.isDigit) then some (-(digitsVal ds : Int)) else none
    else if c = '+' then
      if !ds.isEmpty && ds.all (·.isDigit) then some ((digitsVal ds : Int)) else none
    else if (c :: ds).all (·.isDigit) then some ((digitsVal (c :: ds) : Int)) else none

/-- Modelled from the spec: `get_sn` (defined in `utils.py`, which is not
among the sources) returns "the current wall-clock time in milliseconds,
as a string" (§4.2), i.e. a nonempty decimal-digit string.  The embedding
passes the token as a parameter constrained by this predicate. -/
def snWellFormed (s : String) : Prop :=
  s.data ≠ [] ∧ ∀ c ∈ s.data, c.isDigit = true

/-- Message object built by `_get_package` (`none` models the raised
exceptions: invalid cmd, or `int(key)` failing on a payload key). -/
def packageJson (sn : String) (cmd : Nat) (payload : Dict) : Option Json :=
  if cmd = CMD_SET then
    match payload.mapM (fun kv => pyInt kv.1) with
    | none => none
    | some attrs =>
      some (.obj [("pv", .num 0), ("cmd", .num cmd), ("sn", .str sn),
        ("msg", .obj [("attr", .arr (attrs.map .num)), ("data", .obj payload)])])
  else if cmd = CMD_QUERY then
    some (.obj [("pv", .num 0), ("cmd", .num cmd), ("sn", .str sn),
      ("msg", .obj [("attr", .arr [.num 0])])])
  else if cmd = CMD_INFO then
    some (.obj [("pv", .num 0), ("cmd", .num cmd), ("sn", .str sn), ("msg", .obj [])])
  else none

/-- The full frame `_get_package` sends: compact JSON plus CRLF. -/
def getPackage (sn : String) (cmd : Nat) (payload : Dict) : Option String :=
  (packageJson sn cmd payload).map (fun m => dumps m ++ "\r\n")

/-- Listener's `_process_message`: decode one line; merge `msg.data` into
the cache only for cmd 2 (query reply) and cmd 10 (push); on any decode
failure or missing/ill-typed field the state is returned unchanged (the
code logs and swallows every exception; it never touches the
connection). -/
def processMessage (line : String) (st : ClientState) : ClientState :=
  match loads line with
  | none => st
  | some j =>
    if objGet j "cmd" = some (.num 2) ∨ objGet j "cmd" = some (.num 10) then
      match objGet j "msg" with
      | some m =>
        if truthy m && isObj m then
          match objGet m "data" with
          | some d =>
            if truthy d && isObj d then
              match d with
              | .obj df => { st with device_state := dictUpdate st.device_state df }
              | _ => st
            else st
          | none => st
        else st
      | none => st
    else st

/-- The listener applies `_process_message` to each complete line in
order. -/
def listenerFold (lines : List String) (st : ClientState) : ClientState :=
  lines.foldl (fun s l => processMessage l s) st

/-- Effect of `_close_connection`: stop the listener, drop the socket,
and unconditionally clear the reconnecting flag. -/
def closeConnection (st : ClientState) : ClientState :=
  { st with listener_running := false, connected := false, reconnecting := false }

/-- Effect of `_only_send` on client state: nothing when the send works
or when there is no connection; on a transport error it closes the
connection and spawns a reconnect (whose thread-side effects are modelled
separately).  It swallows every exception. -/
def onlySend (sendFail : Bool) (st : ClientState) : ClientState :=
  if st.connected then (if sendFail then closeConnection st else st) else st

namespace tcp_client

/-- Facade `control`: best-effort send of the set frame, then optimistic
merge of the payload into the cache; always returns `True`. -/
def control (sendFail : Bool) (payload : Dict) (st : ClientState) : Bool × ClientState :=
  let st1 := onlySend sendFail st
  (true, { st1 with device_state := dictUpdate st1.device_state payload })

/-- Facade `query`: snapshot of the cache, no network access. -/
def query (st : ClientState) : Dict :=
  st.device_state

end tcp_client

/-- Whether `pat` starts `l`. -/
def listStartsWith : List Char → List Char → Bool
  | [], _ => true
  | _ :: _, [] => false
  | p :: ps, c :: cs => p = c && listStartsWith ps cs

/-- Whether `pat` occurs contiguously inside `l` (Python `pat in str(res)`
for a digit-string pattern). -/
def hasSub (pat : List Char) : List Char → Bool
  | [] => pat.isEmpty
  | c :: rest => listStartsWith pat (c :: rest) || hasSub pat rest

/-- What `_send_receiver` extracts from the line it matched: the reply's
`msg.data`, or `{}` on any malformed shape (every error path returns
`{}`). -/
def matchedReply (l : String) : Dict :=
  match loads l with
  | none => []
  | some j =>
    match j with
    | .obj fs =>
      if fs.isEmpty then []
      else
        match pyGet (.obj fs) "msg" with
        | some (.obj mf) =>
          match pyGet (.obj mf) "data" with
          | some (.obj df) => df
          | _ => []
        | _ => []
    | _ => []

/-- Receive loop of `_send_receiver`: read up to `fuel` lines (10 in the
code), return the extracted data of the first line containing the
sequence token, together with the lines it did not consume.  Lines read
and not matched are dropped; exhausting the read budget (or the incoming
lines) returns `{}`. -/
def sendReceiver (sn : String) : Nat → List String → Dict × List String
  | 0, ls => ([], ls)
  | _ + 1, [] => ([], [])
  | f + 1, l :: rest =>
    if hasSub sn.data l.data then (matchedReply l, rest)
    else sendReceiver sn f rest

/-- The code's read budget is 10 lines. -/
def sendReceiver10 (sn : String) (lines : List String) : Dict × List String :=
  sendReceiver sn 10 lines

/-! Handshake (`_device_info`) and the reconnection loop (`_reconnect`). -/

/-- Modelled from the spec: one product model of the catalog returned by
`get_pid_list` (defined in `utils.py`, which is not among the sources) —
"given a product id, returns type_code, icon, model_name, dpid_list or
no match" (§6).  Field names follow the keys the client reads: `pid`,
icon `i`, name `n`, `dpid`. -/
structure CatModel where
  pid : String
  i : String
  n : String
  dpid : List Int
  deriving DecidableEq

/-- Modelled from the spec: one catalog group with its type code `c` and
its member models `m`, as iterated by `_device_info`.  The catalog is an
injected read-only parameter (§9). -/
structure CatEntry where
  c : String
  m : List CatModel
  deriving DecidableEq

/-- Inner loop of the catalog scan: first model whose `pid` equals the
device-reported product id. -/
def findModel (p : Json) : List CatModel → Option CatModel
  | [] => none
  | cm :: rest => if Json.str cm.pid = p then some cm else findModel p rest

/-- Outer loop of the catalog scan: first entry containing a matching
model, with that model. -/
def findEntry (p : Json) : List CatEntry → Option (CatEntry × CatModel)
  | [] => none
  | e :: rest =>
    match findModel p e.m with
    | some cm => some (e, cm)
    | none => findEntry p rest

/-- Python falsiness of an optional JSON field (`not self._x`). -/
def optFalsy (o : Option Json) : Bool :=
  match o with
  | none => true
  | some v => !truthy v

/-- Python falsiness of an optional string field. -/
def strFalsy (o : Option String) : Bool :=
  match o with
  | none => true
  | some s => s.isEmpty

/-- Built-in fallback model names keyed by device type code
(`device_type_names.get(code, 'CozyLife Device')`). -/
def defaultModelName (tc : Option Json) : String :=
  match tc with
  | some (.str s) =>
    if s = "00" then "Switch"
    else if s = "01" then "Light"
    else if s = "02" then "Energy Storage"
    else "CozyLife Device"
  | _ => "CozyLife Device"

/-- Embeds `_device_info`.  `resp` is the raw bytes `recv` returned
(`none` when the connection was absent or send/recv raised — all caught
inside the method's `try`).  The second component records whether an
exception escaped the method: the only such site is the `.get` call on a
non-dict JSON reply, which sits outside the `try` block.  Every other
failure path returns `None` normally, assigning at most the fields
reached before the failing check. -/
def deviceInfo (catalog : List CatEntry) (resp : Option String) (st : ClientState) :
    ClientState × Bool :=
  if !st.connected then (st, false)
  else
    match resp with
    | none => (st, false)
    | some r =>
      match loads r with
      | none => (st, false)
      | some j =>
        if !isObj j then (st, true)
        else
          match pyGet j "msg" with
          | none => (st, false)
          | some m =>
            if !isObj m then (st, false)
            else
              match pyGet m "did" with
              | none => (st, false)
              | some did =>
                let st1 := { st with device_id := some did }
                let st2 :=
                  match pyGet m "dtp" with
                  | some dtp => { st1 with device_type_code := some dtp }
                  | none => st1
                match pyGet m "pid" with
                | none => (st2, false)
                | some pidv =>
                  let st3 := { st2 with pid := some pidv }
                  let st4 :=
                    match findEntry pidv catalog with
                    | some (e, cm) =>
                      let stm := { st3 with icon := some cm.i,
                                            device_model_name := some cm.n,
                                            dpid := cm.dpid }
                      if optFalsy stm.device_type_code then
                        { stm with device_type_code := some (.str e.c) }
                      else stm
                    | none => st3
                  let st5 :=
                    if strFalsy st4.device_model_name then
                      { st4 with device_model_name := some (defaultModelName st4.device_type_code) }
                    else st4
                  ({ st5 with listener_running := true }, false)

/-- One connection attempt as the `reconnect_thread` loop sees it:
either the TCP connect raises, or it succeeds and the handshake reads
`resp` from the socket. -/
inductive ConnAttempt where
  | connectFail
  | connected (resp : Option String)
  deriving DecidableEq

/-- Outcome of running the reconnect thread against a list of attempt
outcomes: final state, number of 10-second retry sleeps, and whether the
loop returned (`stopped = false` means it was still retrying when the
supplied outcomes ran out). -/
structure LoopResult where
  st : ClientState
  sleeps : Nat
  stopped : Bool
  deriving DecidableEq

/-- The `while True` loop of `reconnect_thread`: a failed connect sleeps
10 seconds and retries; a successful connect stores the socket, runs
`_device_info`, and — because `_device_info` only ever raises from its
non-dict-reply site — otherwise clears the reconnecting flag and
returns.  An escaped exception is caught by the loop's `except`, sleeps,
and retries. -/
def reconnectLoop (catalog : List CatEntry) : List ConnAttempt → ClientState → LoopResult
  | [], st => ⟨st, 0, false⟩
  | .connectFail :: rest, st =>
    let r := reconnectLoop catalog rest st
    ⟨r.st, r.sleeps + 1, r.stopped⟩
  | .connected resp :: rest, st =>
    let p := deviceInfo catalog resp { st with connected := true }
    if p.2 then
      let r := reconnectLoop catalog rest p.1
      ⟨r.st, r.sleeps + 1, r.stopped⟩
    else ⟨{ p.1 with reconnecting := false }, 0, true⟩

/-! Reconnection-guard interleaving model (`_reconnect`,
`_close_connection`, and the spawned `reconnect_thread`s). -/

/-- Lifecycle phase of one spawned `reconnect_thread`: created by
`thread.start()` but not yet scheduled; running its connect loop (its
first statement set the reconnecting flag); or returned. -/
inductive TaskPhase where
  | spawned
  | looping
  | done
  deriving DecidableEq

/-- The shared state the reconnection guard relies on: the
`_reconnecting` flag and the phases of every reconnect thread spawned so
far. -/
structure ReconState where
  reconnecting : Bool
  tasks : List TaskPhase
  deriving DecidableEq

/-- Atomic events of the guard protocol, each a contiguous piece of the
Python code: `callReconnect` is the body of `_reconnect` (guard check
plus `thread.start()`); `taskBegin i` is thread `i` executing its first
statement `self._reconnecting = True` and entering the loop;
`taskAttemptFail i` is one failed connect iteration (sleep, no state
change); `taskSucceed i` is the success path (`self._reconnecting =
False; return`); `closeConn` is `_close_connection`, whose last line
unconditionally clears the flag. -/
inductive ReconEvent where
  | callReconnect
  | taskBegin (i : Nat)
  | taskAttemptFail (i : Nat)
  | taskSucceed (i : Nat)
  | closeConn

/-- One step of the guard protocol. -/
def stepRecon (st : ReconState) (e : ReconEvent) : ReconState :=
  match e with
  | .callReconnect =>
    if st.reconnecting then st else { st with tasks := st.tasks ++ [.spawned] }
  | .taskBegin i =>
    if st.tasks.get? i = some .spawned then
      { reconnecting := true, tasks := st.tasks.set i .looping }
    else st
  | .taskAttemptFail _ => st
  | .taskSucceed i =>
    if st.tasks.get? i = some .looping then
      { reconnecting := false, tasks := st.tasks.set i .done }
    else st
  | .closeConn => { st with reconnecting := false }

/-- Run a schedule from the initial state (flag clear, no tasks). -/
def runRecon (es : List ReconEvent) : ReconState :=
  es.foldl stepRecon ⟨false, []⟩

/-- Number of reconnection tasks alive (spawned or looping). -/
def liveReconTasks (st : ReconState) : Nat :=
  (st.tasks.filter (fun p => p != .done)).length

/-! Switch entity (`switch.py`, `CozyLifeSwitch`). -/

/-- Python `0 != v` for a cached JSON value (`0 != False` is `False`;
any non-number, non-bool value compares unequal to `0`). -/
def pyNeZero (v : Json) : Bool :=
  match v with
  | .num n => n != 0
  | .bool b => b
  | _ => true

/-- The switch's `_refresh_state`: take the `query()` snapshot and index
it with the bare key `"1"`.  `none` models the `KeyError` the subscript
raises when the key is absent. -/
def switchRefresh (st : ClientState) : Option Bool :=
  match dictGet (tcp_client.query st) "1" with
  | none => none
  | some v => some (pyNeZero v)

/-- The `is_on` property: it re-runs `_refresh_state` and returns the
refreshed flag; the `KeyError` propagates. -/
def switchIsOn (st : ClientState) : Option Bool :=
  switchRefresh st

/-- `CozyLifeSwitch.__init__` ends by calling `_refresh_state`, so
construction raises exactly when the refresh does. -/
def cozySwitchInit (st : ClientState) : Option Bool :=
  switchRefresh st

/-! Predicates used by the claims. -/

/-- A decoded line that lacks one of the fields `_process_message`
needs: no `cmd`, no `msg`, or no `data` under `msg`. -/
def lacksFrameFields (j : Json) : Prop :=
  objGet j "cmd" = none ∨ objGet j "msg" = none ∨
    (∀ m, objGet j "msg" = some m → objGet m "data" = none)

/-- Handshake replies on which `_device_info` bails out before assigning
any identity field: unparseable JSON, a JSON object with `msg` missing or
not a dict, or a `msg` dict without `did`.  (A parseable non-object reply
is excluded: there the `.get` raises outside the `try`.) -/
def badHandshake (r : String) : Prop :=
  loads r = none ∨
    ∃ j, loads r = some j ∧ isObj j = true ∧
      (pyGet j "msg" = none ∨
        ∃ m, pyGet j "msg" = some m ∧
          (isObj m = false ∨ (isObj m = true ∧ pyGet m "did" = none)))

/-- Characters that `json.dumps` emits verbatim and the string scanner
consumes verbatim (no quote, backslash, or escaped control character). -/
def safeChar (c : Char) : Prop :=
  c ≠ '"' ∧ c ≠ '\\' ∧ c ≠ '\n' ∧ c ≠ '\r' ∧ c ≠ '\t'

/-- Strings whose serialization round-trips character for character. -/
def safeStr (s : String) : Prop :=
  ∀ c ∈ s.data, safeChar c


instance (c : Char) : Decidable (safeChar c) :=
  inferInstanceAs (Decidable (_ ∧ _ ∧ _ ∧ _ ∧ _))

instance (s : String) : Decidable (safeStr s) :=
  inferInstanceAs (Decidable (∀ c ∈ s.data, safeChar c))

/-! Dictionary lemmas. -/

theorem dictUpdate_cons (d : Dict) (kv : String × Json) (p : Dict) :
    dictUpdate d (kv :: p) = dictUpdate (setKey d kv.1 kv.2) p := rfl

theorem dictGet_setKey_self (d : Dict) (k : String) (v : Json) :
    dictGet (setKey d k v) k = some v := by
  induction d with
  | nil => simp [setKey, dictGet]
  | cons kv rest ih =>
    obtain ⟨k1, v1⟩ := kv
    by_cases h : k1 = k
    · simp [setKey, h, dictGet]
    · simp [setKey, h, dictGet, ih]

theorem dictGet_setKey_ne (d : Dict) (k k' : String) (v : Json) (h : k' ≠ k) :
    dictGet (setKey d k' v) k = dictGet d k := by
  induction d with
  | nil => simp [setKey, dictGet, h]
  | cons kv rest ih =>
    obtain ⟨k1, v1⟩ := kv
    by_cases h1 : k1 = k'
    · subst h1
      simp [setKey, dictGet, h]
    · simp only [setKey, if_neg h1]
      by_cases h2 : k1 = k
      · simp [dictGet, h2]
      · simp [dictGet, h2, ih]

theorem dictGet_dictUpdate_not_mem (p d : Dict) (k : String)
    (h : ∀ kv ∈ p, kv.1 ≠ k) : dictGet (dictUpdate d p) k = dictGet d k := by
  induction p generalizing d with
  | nil => rfl
  | cons kv rest ih =>
    rw [dictUpdate_cons]
    rw [ih (setKey d kv.1 kv.2) (fun x hx => h x (List.mem_cons_of_mem _ hx))]
    exact dictGet_setKey_ne d k kv.1 kv.2 (h kv (List.mem_cons_self _ _))

theorem dictGet_dictUpdate_mem (p d : Dict) (k : String) (v : Json)
    (hnd : (p.map Prod.fst).Nodup) (hk : dictGet p k = some v) :
    dictGet (dictUpdate d p) k = some v := by
  induction p generalizing d with
  | nil => simp [dictGet] at hk
  | cons kv rest ih =>
    obtain ⟨k1, v1⟩ := kv
    simp only [List.map_cons, List.nodup_cons] at hnd
    rw [dictUpdate_cons]
    by_cases h : k1 = k
    · subst h
      simp only [dictGet, if_pos, Option.some.injEq] at hk
      subst hk
      rw [dictGet_dictUpdate_not_mem]
      · exact dictGet_setKey_self d k1 v1
      · intro x hx hcon
        exact hnd.1 (hcon ▸ List.mem_map_of_mem Prod.fst hx)
    · simp only [dictGet, if_neg h] at hk
      exact ih (setKey d k1 v1) hnd.2 hk

/-! Claim C3. -/

/-- C3: for every payload mapping `p`, `control(p)` returns `True` (it is
a total function of the state — `_only_send` swallows every transport
error — so it never raises to its caller), and a `query()` issued
immediately afterwards, with no intervening device traffic, returns a
mapping agreeing with `p` on every key of `p`: the pure optimistic
echo.  The result holds whether or not the underlying send failed. -/
theorem c3_control_optimistic_echo (sendFail : Bool) (p : Dict) (st : ClientState)
    (hnd : (p.map Prod.fst).Nodup) :
    (tcp_client.control sendFail p st).1 = true ∧
      ∀ k v, dictGet p k = some v →
        dictGet (tcp_client.query (tcp_client.control sendFail p st).2) k = some v := by
  refine ⟨rfl, fun k v hk => ?_⟩
  exact dictGet_dictUpdate_mem p _ k v hnd hk

/-- Witness for C3 at a concrete payload and the fresh client. -/
theorem c3_witness :
    (tcp_client.control false [("1", Json.num 0)] initClient).1 = true ∧
      dictGet (tcp_client.query (tcp_client.control false [("1", Json.num 0)] initClient).2)
        "1" = some (Json.num 0) := by
  refine ⟨(c3_control_optimistic_echo false [("1", Json.num 0)] initClient (by decide)).1, ?_⟩
  exact (c3_control_optimistic_echo false [("1", Json.num 0)] initClient (by decide)).2
    "1" (Json.num 0) (by decide)

/-! Claim C5. -/

/-- C5: on a freshly constructed client — one on which no device data has
been observed, including one that never connected — `query()` returns the
empty mapping.  `query` is a total function of the state (it only copies
the cache under the lock), so it cannot fail or throw. -/
theorem c5_query_fresh_empty : tcp_client.query initClient = ([] : Dict) := rfl

/-! Claim C10. -/

/-- C10: when the State Cache holds no key `"1"`, the switch entity's
`_refresh_state` — and with it both `CozyLifeSwitch.__init__` and the
`is_on` property — indexes the `query()` snapshot with the bare key `"1"`
and raises `KeyError` (modelled by `none`): `query()`'s never-fails
guarantee does not extend to this consumer. -/
theorem c10_switch_keyerror (st : ClientState)
    (h : dictGet (tcp_client.query st) "1" = none) :
    switchRefresh st = none ∧ cozySwitchInit st = none ∧ switchIsOn st = none := by
  refine ⟨?_, ?_, ?_⟩ <;> simp [switchRefresh, cozySwitchInit, switchIsOn, h]

/-- Witness for C10: the freshly connected client before any query reply
or push. -/
theorem c10_witness :
    switchRefresh initClient = none ∧ cozySwitchInit initClient = none ∧
      switchIsOn initClient = none :=
  c10_switch_keyerror initClient rfl

/-! Claim C8. -/

/-- Counterexample to C8 as stated: the at-most-one-reconnection
invariant fails on a schedule the code permits.  One reconnect call
spawns task 0; it begins (sets the flag) and sleeps after a failed
attempt; `_close_connection` (the Listener failure path runs it before
its own `_reconnect` call) unconditionally clears the flag; the next
reconnect call therefore passes the guard and spawns task 1; once task 1
begins, two reconnection tasks are alive simultaneously. -/
theorem c8_counterexample :
    liveReconTasks (runRecon
      [.callReconnect, .taskBegin 0, .taskAttemptFail 0, .closeConn,
       .callReconnect, .taskBegin 1]) = 2 := by decide

/-- C8 amended: a reconnect request made while the reconnecting flag is
set is a no-op — it starts no new connection task and changes no client
state.  The stronger invariant in the claim (never two live reconnection
tasks) does not hold, because the spawned thread, not the caller, sets
the flag, and `_close_connection` clears it even while a reconnection
task is alive (`c8_counterexample`). -/
theorem c8_amended_guard_noop (st : ReconState) (h : st.reconnecting = true) :
    stepRecon st .callReconnect = st := by
  simp [stepRecon, h]

/-- Witness for the amended C8 guard no-op. -/
theorem c8_witness :
    stepRecon ⟨true, [TaskPhase.looping]⟩ .callReconnect = ⟨true, [TaskPhase.looping]⟩ :=
  c8_amended_guard_noop ⟨true, [TaskPhase.looping]⟩ rfl

/-! Claim C4. -/

/-- C4: cache writes are last-writer-wins per key.  After
`control({"1": 255})` the cache maps `"1"` to `255`; when the Listener
then processes a push frame (cmd 10) whose data contains `{"1": 0}`, a
following `query()` maps `"1"` to `0` — the later device-authoritative
write overrides the earlier optimistic one. -/
theorem c4_last_writer_wins :
    dictGet (tcp_client.query (tcp_client.control false [("1", Json.num 255)] initClient).2)
        "1" = some (Json.num 255) ∧
      dictGet (tcp_client.query (processMessage
          "\x7b\"cmd\":10,\"pv\":0,\"sn\":\"163\",\"res\":0,\"msg\":\x7b\"attr\":[1],\"data\":\x7b\"1\":0\x7d\x7d\x7d"
          (tcp_client.control false [("1", Json.num 255)] initClient).2))
        "1" = some (Json.num 0) := by
  exact ⟨by decide, by decide⟩

/-! Claim C1. -/

/-- Counterexample to C1 as stated: a set acknowledgement (cmd 3) with a
well-formed `msg.data` mapping is NOT merged into the State Cache —
`_process_message` only handles cmd 2 and cmd 10.  On the fresh client,
processing the cmd-3 line leaves the cache empty, whereas the claimed
merge would have produced `{"1": 0}`. -/
theorem c1_counterexample :
    processMessage "\x7b\"cmd\":3,\"pv\":0,\"sn\":\"163\",\"msg\":\x7b\"attr\":[1],\"data\":\x7b\"1\":0\x7d\x7d,\"res\":0\x7d"
        initClient = initClient ∧
      processMessage "\x7b\"cmd\":3,\"pv\":0,\"sn\":\"163\",\"msg\":\x7b\"attr\":[1],\"data\":\x7b\"1\":0\x7d\x7d,\"res\":0\x7d"
          initClient ≠
        { initClient with
            device_state := dictUpdate initClient.device_state [("1", Json.num 0)] } := by
  exact ⟨by decide, by decide⟩

/-- C1 amended: the Listener's message processing ignores cmd-3 set
acknowledgements entirely (the State Cache and all other client state are
unchanged), and merges `msg.data` into the State Cache exactly for lines
whose cmd is 2 (query reply) or 10 (push) carrying a nonempty `msg` dict
with a nonempty `data` dict. -/
theorem c1_amended_set_ack_ignored :
    (∀ line st j, loads line = some j → objGet j "cmd" = some (.num 3) →
        processMessage line st = st) ∧
      (∀ line st j mf df, loads line = some j →
        (objGet j "cmd" = some (.num 2) ∨ objGet j "cmd" = some (.num 10)) →
        objGet j "msg" = some (.obj mf) → mf ≠ [] →
        objGet (.obj mf) "data" = some (.obj df) → df ≠ [] →
        processMessage line st =
          { st with device_state := dictUpdate st.device_state df }) := by
  constructor
  · intro line st j h1 h2
    simp only [processMessage, h1, h2]
    rw [if_neg]
    rintro (h | h) <;> simp at h
  · intro line st j mf df h1 h2 h3 hmf h4 hdf
    simp only [processMessage, h1, h3, h4]
    rw [if_pos h2]
    have hmf' : mf.isEmpty = false := by
      cases mf with
      | nil => exact absurd rfl hmf
      | cons a l => rfl
    have hdf' : df.isEmpty = false := by
      cases df with
      | nil => exact absurd rfl hdf
      | cons a l => rfl
    simp [truthy, isObj, hmf', hdf']

/-- Witness for the amended C1: the cmd-3 part at a concrete set-ack
line, the cmd-10 part at a concrete push line. -/
theorem c1_amended_witness :
    processMessage "\x7b\"cmd\":3,\"msg\":\x7b\"attr\":[1],\"data\":\x7b\"1\":0\x7d\x7d\x7d"
        initClient = initClient ∧
      processMessage "\x7b\"cmd\":10,\"msg\":\x7b\"attr\":[1],\"data\":\x7b\"1\":0\x7d\x7d\x7d"
          initClient =
        { initClient with
            device_state := dictUpdate initClient.device_state [("1", Json.num 0)] } := by
  constructor
  · exact c1_amended_set_ack_ignored.1
      "\x7b\"cmd\":3,\"msg\":\x7b\"attr\":[1],\"data\":\x7b\"1\":0\x7d\x7d\x7d"
      initClient
      (Json.obj [("cmd", Json.num 3),
        ("msg", Json.obj [("attr", Json.arr [Json.num 1]),
          ("data", Json.obj [("1", Json.num 0)])])])
      (by decide) (by decide)
  · exact c1_amended_set_ack_ignored.2
      "\x7b\"cmd\":10,\"msg\":\x7b\"attr\":[1],\"data\":\x7b\"1\":0\x7d\x7d\x7d"
      initClient
      (Json.obj [("cmd", Json.num 10),
        ("msg", Json.obj [("attr", Json.arr [Json.num 1]),
          ("data", Json.obj [("1", Json.num 0)])])])
      [("attr", Json.arr [Json.num 1]), ("data", Json.obj [("1", Json.num 0)])]
      [("1", Json.num 0)]
      (by decide) (Or.inr (by decide)) (by decide) (by decide) (by decide) (by decide)

/-! Claim C7. -/

/-- C7: for every input line that is not valid JSON, or whose decoded
value lacks the expected `cmd`/`msg`/`data` fields, `_process_message`
returns the state unchanged: being a total function it raises nothing,
the State Cache is untouched, and the connection fields are untouched —
the line is simply discarded. -/
theorem c7_malformed_line_discarded (line : String) (st : ClientState)
    (h : loads line = none ∨ ∃ j, loads line = some j ∧ lacksFrameFields j) :
    processMessage line st = st := by
  rcases h with h | ⟨j, hj, hl⟩
  · simp [processMessage, h]
  · simp only [processMessage, hj]
    by_cases hcmd : objGet j "cmd" = some (.num 2) ∨ objGet j "cmd" = some (.num 10)
    · rw [if_pos hcmd]
      rcases hl with hc | hm | hd
      · rcases hcmd with h2 | h2 <;> rw [hc] at h2 <;> exact absurd h2 (by simp)
      · simp [hm]
      · cases hmsg : objGet j "msg" with
        | none => simp
        | some m =>
          cases htm : (truthy m && isObj m) with
          | false => simp [htm]
          | true => simp [htm, hd m hmsg]
    · rw [if_neg hcmd]

/-- Witness for C7 at a line that is not valid JSON. -/
theorem c7_witness : processMessage "not json" initClient = initClient :=
  c7_malformed_line_discarded "not json" initClient (Or.inl (by decide))

/-! Claim C2. -/

theorem pyGet_eq_some {j : Json} {k : String} {v : Json}
    (h : pyGet j k = some v) : objGet j k = some v := by
  unfold pyGet at h
  cases ho : objGet j k with
  | none => rw [ho] at h; exact absurd h (by simp)
  | some w => cases w <;> rw [ho] at h <;> simp at h <;> simp [h]

theorem isObj_of_objGet_eq_some {j : Json} {k : String} {v : Json}
    (h : objGet j k = some v) : isObj j = true := by
  cases j <;> first | rfl | simp [objGet] at h

/-- On a handshake reply that is unparseable, lacks `msg` (or has a
non-dict `msg`), or lacks `did`, `_device_info` returns without touching
any field. -/
theorem deviceInfo_bad (catalog : List CatEntry) (r : String) (st : ClientState)
    (hc : st.connected = true) (hb : badHandshake r) :
    deviceInfo catalog (some r) st = (st, false) := by
  rcases hb with h | ⟨j, hj, hobj, hrest⟩
  · simp [deviceInfo, hc, h]
  · rcases hrest with hm | ⟨m, hm, hmm⟩
    · simp [deviceInfo, hc, hj, hobj, hm]
    · rcases hmm with hno | ⟨hyes, hdid⟩
      · simp [deviceInfo, hc, hj, hobj, hm, hno]
      · simp [deviceInfo, hc, hj, hobj, hm, hyes, hdid]

/-- On a reply whose `msg` dict carries `did` but no `pid`,
`_device_info` assigns `device_id` (and the type code when `dtp` is
present) and then returns. -/
theorem deviceInfo_no_pid (catalog : List CatEntry) (r : String) (st : ClientState)
    (j m did : Json) (hc : st.connected = true) (hj : loads r = some j)
    (hm : pyGet j "msg" = some m) (him : isObj m = true)
    (hdid : pyGet m "did" = some did) (hpid : pyGet m "pid" = none) :
    deviceInfo catalog (some r) st =
      ({ st with
          device_id := some did
          device_type_code := (pyGet m "dtp").elim st.device_type_code some }, false) := by
  have hobj : isObj j = true := isObj_of_objGet_eq_some (pyGet_eq_some hm)
  cases hdtp : pyGet m "dtp" with
  | none => simp [deviceInfo, hc, hj, hobj, hm, him, hdid, hdtp, hpid]
  | some dtp => simp [deviceInfo, hc, hj, hobj, hm, him, hdid, hdtp, hpid]

/-- Counterexample to C2 as stated, at the concrete handshake reply
`{"msg":{"did":"abc"}}` (a reply lacking a product id): contrary to the
claim, the identity field `device_id` IS assigned, and the connection
task stops immediately (no 10-second delay, the remaining connect
attempt never made) instead of taking the retry path. -/
theorem c2_counterexample :
    (reconnectLoop [] [.connected (some "\x7b\"msg\":\x7b\"did\":\"abc\"\x7d\x7d"), .connectFail]
        initClient).st.device_id = some (Json.str "abc") ∧
      (reconnectLoop [] [.connected (some "\x7b\"msg\":\x7b\"did\":\"abc\"\x7d\x7d"), .connectFail]
          initClient).sleeps = 0 ∧
      (reconnectLoop [] [.connected (some "\x7b\"msg\":\x7b\"did\":\"abc\"\x7d\x7d"), .connectFail]
          initClient).stopped = true := by
  exact ⟨by decide, by decide, by decide⟩

/-- C2 amended: a handshake reply that is unparseable, lacks `msg`, has
a non-dict `msg`, or lacks `did` leaves every identity field unassigned;
a reply carrying `did` but no `pid` assigns `device_id` (and the type
code when `dtp` is present).  In all of these cases `_device_info`
returns normally, so the connection task treats the attempt as complete
and stops — it does not retry.  The fixed-delay retry path is taken
exactly by failing connection attempts (third conjunct). -/
theorem c2_amended_handshake_failure_stops :
    (∀ (catalog : List CatEntry) (rest : List ConnAttempt) (st : ClientState) (r : String),
      badHandshake r →
        reconnectLoop catalog (.connected (some r) :: rest) st =
          ⟨{ st with connected := true, reconnecting := false }, 0, true⟩) ∧
      (∀ (catalog : List CatEntry) (rest : List ConnAttempt) (st : ClientState)
          (r : String) (j m did : Json),
        loads r = some j → pyGet j "msg" = some m → isObj m = true →
        pyGet m "did" = some did → pyGet m "pid" = none →
          reconnectLoop catalog (.connected (some r) :: rest) st =
            ⟨{ st with
                connected := true
                reconnecting := false
                device_id := some did
                device_type_code := (pyGet m "dtp").elim st.device_type_code some },
              0, true⟩) ∧
      (∀ (catalog : List CatEntry) (rest : List ConnAttempt) (st : ClientState),
        reconnectLoop catalog (.connectFail :: rest) st =
          ⟨(reconnectLoop catalog rest st).st, (reconnectLoop catalog rest st).sleeps + 1,
            (reconnectLoop catalog rest st).stopped⟩) := by
  refine ⟨?_, ?_, ?_⟩
  · intro catalog rest st r hb
    simp only [reconnectLoop]
    rw [deviceInfo_bad catalog r { st with connected := true } rfl hb]
    simp
  · intro catalog rest st r j m did hj hm him hdid hpid
    simp only [reconnectLoop]
    rw [deviceInfo_no_pid catalog r { st with connected := true } j m did rfl hj hm him
      hdid hpid]
    simp
  · intro catalog rest st
    rfl

/-- Witness for the amended C2: an unparseable reply stops the task with
nothing assigned; a no-pid reply stops it with `device_id` assigned; a
failed connect sleeps and retries. -/
theorem c2_witness :
    reconnectLoop [] [.connected (some "bad json")] initClient =
        ⟨{ initClient with connected := true, reconnecting := false }, 0, true⟩ ∧
      reconnectLoop [] [.connected (some "\x7b\"msg\":\x7b\"did\":\"abc\"\x7d\x7d")] initClient =
        ⟨{ initClient with
            connected := true
            reconnecting := false
            device_id := some (Json.str "abc")
            device_type_code :=
              (pyGet (Json.obj [("did", Json.str "abc")]) "dtp").elim
                initClient.device_type_code some },
          0, true⟩ ∧
      reconnectLoop [] [.connectFail] initClient =
        ⟨(reconnectLoop [] [] initClient).st, (reconnectLoop [] [] initClient).sleeps + 1,
          (reconnectLoop [] [] initClient).stopped⟩ := by
  refine ⟨?_, ?_, ?_⟩
  · exact c2_amended_handshake_failure_stops.1 [] [] initClient "bad json" (Or.inl (by decide))
  · exact c2_amended_handshake_failure_stops.2.1 [] [] initClient
      "\x7b\"msg\":\x7b\"did\":\"abc\"\x7d\x7d"
      (Json.obj [("msg", Json.obj [("did", Json.str "abc")])])
      (Json.obj [("did", Json.str "abc")])
      (Json.str "abc") (by decide) (by decide) (by decide) (by decide) (by decide)
  · exact c2_amended_handshake_failure_stops.2.2 [] [] initClient

/-! Claim C9. -/

theorem sendReceiver_match (sn : String) (pre : List String) (r : String)
    (post : List String) :
    ∀ f, pre.length < f → (∀ l ∈ pre, hasSub sn.data l.data = false) →
      hasSub sn.data r.data = true →
      sendReceiver sn f (pre ++ r :: post) = (matchedReply r, post) := by
  induction pre with
  | nil =>
    intro f hf hpre hr
    cases f with
    | zero => exact absurd hf (by simp)
    | succ g => simp [sendReceiver, hr]
  | cons l pre' ih =>
    intro f hf hpre hr
    cases f with
    | zero => exact absurd hf (by omega)
    | succ g =>
      have hl : hasSub sn.data l.data = false := hpre l (List.mem_cons_self _ _)
      simp only [List.cons_append, sendReceiver, hl]
      rw [if_neg (by simp [hl])]
      exact ih g (by simpa using Nat.lt_of_succ_lt_succ hf)
        (fun x hx => hpre x (List.mem_cons_of_mem _ hx)) hr

/-- C9 amended: when the device's incoming lines are some non-matching
lines (fewer than the 10-read budget) followed by the reply containing
the token and then any further lines, `_send_receiver` returns exactly
the matched line's extracted data, consuming — and dropping — the
non-matching lines before the reply; only the lines after the reply
remain for the Listener, so only those pushes reach the State Cache.
Pushes the send-and-receive path consumed before the match are NOT
applied to the cache (counterexample to the claim's second half). -/
theorem c9_amended_correlation (sn : String) (pre : List String) (r : String)
    (post : List String) (hlen : pre.length < 10)
    (hpre : ∀ l ∈ pre, hasSub sn.data l.data = false)
    (hr : hasSub sn.data r.data = true) :
    sendReceiver10 sn (pre ++ r :: post) = (matchedReply r, post) ∧
      ∀ st, listenerFold (sendReceiver10 sn (pre ++ r :: post)).2 st = listenerFold post st := by
  have h : sendReceiver10 sn (pre ++ r :: post) = (matchedReply r, post) :=
    sendReceiver_match sn pre r post 10 hlen hpre hr
  exact ⟨h, fun st => by rw [h]⟩

/-- Counterexample to C9 as stated, with token `777` and incoming lines
push (`{"2":5}`, token 111), reply (token 777, data `{"1":1}`), push
(`{"3":7}`, token 222): the reply's data is returned, but the first push
was consumed and dropped by `_send_receiver` itself, so after the
Listener processes everything left over, the cache holds the second
push's key `"3"` and NOT the first push's key `"2"` — the claim's "both
push lines are still applied to the State Cache regardless of their
order relative to the reply" fails. -/
theorem c9_counterexample :
    (sendReceiver10 "777"
        ["\x7b\"cmd\":10,\"pv\":0,\"sn\":\"111\",\"msg\":\x7b\"attr\":[2],\"data\":\x7b\"2\":5\x7d\x7d\x7d",
         "\x7b\"cmd\":2,\"pv\":0,\"sn\":\"777\",\"msg\":\x7b\"attr\":[1],\"data\":\x7b\"1\":1\x7d\x7d\x7d",
         "\x7b\"cmd\":10,\"pv\":0,\"sn\":\"222\",\"msg\":\x7b\"attr\":[3],\"data\":\x7b\"3\":7\x7d\x7d\x7d"]).1 =
        [("1", Json.num 1)] ∧
      dictGet (listenerFold (sendReceiver10 "777"
          ["\x7b\"cmd\":10,\"pv\":0,\"sn\":\"111\",\"msg\":\x7b\"attr\":[2],\"data\":\x7b\"2\":5\x7d\x7d\x7d",
           "\x7b\"cmd\":2,\"pv\":0,\"sn\":\"777\",\"msg\":\x7b\"attr\":[1],\"data\":\x7b\"1\":1\x7d\x7d\x7d",
           "\x7b\"cmd\":10,\"pv\":0,\"sn\":\"222\",\"msg\":\x7b\"attr\":[3],\"data\":\x7b\"3\":7\x7d\x7d\x7d"]).2
          initClient).device_state "2" = none ∧
      dictGet (listenerFold (sendReceiver10 "777"
          ["\x7b\"cmd\":10,\"pv\":0,\"sn\":\"111\",\"msg\":\x7b\"attr\":[2],\"data\":\x7b\"2\":5\x7d\x7d\x7d",
           "\x7b\"cmd\":2,\"pv\":0,\"sn\":\"777\",\"msg\":\x7b\"attr\":[1],\"data\":\x7b\"1\":1\x7d\x7d\x7d",
           "\x7b\"cmd\":10,\"pv\":0,\"sn\":\"222\",\"msg\":\x7b\"attr\":[3],\"data\":\x7b\"3\":7\x7d\x7d\x7d"]).2
          initClient).device_state "3" = some (Json.num 7) := by
  exact ⟨by decide, by decide, by decide⟩

/-- Witness for the amended C9 at one leading push, the matching reply,
and one trailing push. -/
theorem c9_witness :
    sendReceiver10 "777"
        (["\x7b\"cmd\":10,\"sn\":\"111\",\"msg\":\x7b\"attr\":[2],\"data\":\x7b\"2\":5\x7d\x7d\x7d"] ++
          "\x7b\"cmd\":2,\"sn\":\"777\",\"msg\":\x7b\"attr\":[1],\"data\":\x7b\"1\":1\x7d\x7d\x7d" ::
          ["\x7b\"cmd\":10,\"sn\":\"222\",\"msg\":\x7b\"attr\":[3],\"data\":\x7b\"3\":7\x7d\x7d\x7d"]) =
      (matchedReply "\x7b\"cmd\":2,\"sn\":\"777\",\"msg\":\x7b\"attr\":[1],\"data\":\x7b\"1\":1\x7d\x7d\x7d",
        ["\x7b\"cmd\":10,\"sn\":\"222\",\"msg\":\x7b\"attr\":[3],\"data\":\x7b\"3\":7\x7d\x7d\x7d"]) :=
  (c9_amended_correlation "777"
    ["\x7b\"cmd\":10,\"sn\":\"111\",\"msg\":\x7b\"attr\":[2],\"data\":\x7b\"2\":5\x7d\x7d\x7d"]
    "\x7b\"cmd\":2,\"sn\":\"777\",\"msg\":\x7b\"attr\":[1],\"data\":\x7b\"1\":1\x7d\x7d\x7d"
    ["\x7b\"cmd\":10,\"sn\":\"222\",\"msg\":\x7b\"attr\":[3],\"data\":\x7b\"3\":7\x7d\x7d\x7d"]
    (by decide) (by decide) (by decide)).1

/-! Claim C6: serializer/scanner round trip.  Character-class facts. -/

theorem digit_char_facts (c : Char) (h : c.isDigit = true) :
    isWsChar c = false ∧ c ≠ '"' ∧ c ≠ '[' ∧ c ≠ '\x7b' ∧ c ≠ 'n' ∧ c ≠ 't' ∧
      c ≠ 'f' ∧ c ≠ '-' ∧ c ≠ ']' ∧ c ≠ '\x7d' ∧ c ≠ ':' ∧ c ≠ ',' ∧ safeChar c := by
  refine ⟨?_, ?_, ?_, ?_, ?_, ?_, ?_, ?_, ?_, ?_, ?_, ?_, ?_, ?_, ?_, ?_, ?_⟩
  · cases hc : isWsChar c with
    | false => rfl
    | true =>
      simp only [isWsChar, Bool.or_eq_true, decide_eq_true_eq, or_assoc] at hc
      rcases hc with rfl | rfl | rfl | rfl <;> exact absurd h (by decide)
  all_goals exact fun he => absurd (he ▸ h) (by decide)

theorem minus_char_facts :
    isWsChar '-' = false ∧ '-' ≠ '"' ∧ '-' ≠ '[' ∧ '-' ≠ '\x7b' ∧ '-' ≠ 'n' ∧
      '-' ≠ 't' ∧ '-' ≠ 'f' ∧ '-' ≠ ']' ∧ '-' ≠ '\x7d' ∧ '-' ≠ ':' ∧ '-' ≠ ',' ∧
      safeChar '-' := by
  refine ⟨rfl, ?_, ?_, ?_, ?_, ?_, ?_, ?_, ?_, ?_, ?_, ?_, ?_, ?_, ?_, ?_⟩ <;> decide

theorem skipWs_cons_not_ws (c : Char) (r : List Char) (h : isWsChar c = false) :
    skipWs (c :: r) = c :: r := by
  simp [skipWs, h]

/-! Decimal printing facts. -/

theorem char_ofNat_digit (d : Nat) (hd : d < 10) :
    (Char.ofNat (48 + d)).isDigit = true ∧ (Char.ofNat (48 + d)).toNat = 48 + d := by
  interval_cases d <;> exact ⟨by decide, by decide⟩

theorem natChars_ne_nil (n : Nat) : natChars n ≠ [] := by
  unfold natChars
  by_cases h : n = 0
  · simp [h]
  · simp only [h, if_false]
    intro hcon
    rw [List.map_eq_nil_iff, List.reverse_eq_nil_iff] at hcon
    exact Nat.digits_ne_nil_iff_ne_zero.mpr h hcon

theorem digit_of_mem_natChars (n : Nat) (c : Char) (hc : c ∈ natChars n) :
    c.isDigit = true := by
  unfold natChars at hc
  by_cases h : n = 0
  · simp [h] at hc
    subst hc
    decide
  · simp only [h, if_false, List.mem_map, List.mem_reverse] at hc
    obtain ⟨d, hd, rfl⟩ := hc
    exact (char_ofNat_digit d (Nat.digits_lt_base (by norm_num) hd)).1

theorem digitsVal_append_one (xs : List Char) (c : Char) :
    digitsVal (xs ++ [c]) = 10 * digitsVal xs + (c.toNat - 48) := by
  simp [digitsVal, List.foldl_append]

theorem digitsVal_rev_map (l : List Nat) (hl : ∀ d ∈ l, d < 10) :
    digitsVal (l.reverse.map (fun d => Char.ofNat (48 + d))) = Nat.ofDigits 10 l := by
  induction l with
  | nil => simp [digitsVal, Nat.ofDigits_nil]
  | cons d l ih =>
    have hd : d < 10 := hl d (List.mem_cons_self _ _)
    rw [List.reverse_cons, List.map_append]
    simp only [List.map_cons, List.map_nil]
    rw [digitsVal_append_one, ih (fun x hx => hl x (List.mem_cons_of_mem _ hx)),
      Nat.ofDigits_cons, (char_ofNat_digit d hd).2]
    omega

theorem digitsVal_natChars (n : Nat) : digitsVal (natChars n) = n := by
  unfold natChars
  by_cases h : n = 0
  · simp [h, digitsVal]
  · simp only [h, if_false]
    rw [digitsVal_rev_map (Nat.digits 10 n) (fun d hd => Nat.digits_lt_base (by norm_num) hd)]
    exact Nat.ofDigits_digits 10 n

theorem takeDigits_spec (ds rest : List Char) (hds : ∀ c ∈ ds, c.isDigit = true)
    (hrest : ∀ c, rest.head? = some c → c.isDigit = false) :
    takeDigits (ds ++ rest) = (ds, rest) := by
  induction ds with
  | nil =>
    cases rest with
    | nil => rfl
    | cons c r =>
      have : c.isDigit = false := hrest c rfl
      simp [takeDigits, this]
  | cons d ds' ih =>
    have hd : d.isDigit = true := hds d (List.mem_cons_self _ _)
    simp only [List.cons_append, takeDigits, hd, if_true, List.append_eq]
    rw [ih (fun x hx => hds x (List.mem_cons_of_mem _ hx))]

/-! Number token round trip. -/

theorem natChars_cons (n : Nat) : ∃ c0 t, natChars n = c0 :: t := by
  cases h : natChars n with
  | nil => exact absurd h (natChars_ne_nil n)
  | cons a b => exact ⟨a, b, rfl⟩

theorem parseNum_intChars (i : Int) (rest : List Char)
    (hrest : ∀ c, rest.head? = some c → c.isDigit = false) :
    parseNum (intChars i ++ rest) = some (i, rest) := by
  cases i with
  | ofNat n =>
    obtain ⟨c0, t, hct⟩ := natChars_cons n
    have hc0 : c0.isDigit = true :=
      digit_of_mem_natChars n c0 (by rw [hct]; exact List.mem_cons_self _ _)
    have htake : takeDigits (natChars n ++ rest) = (natChars n, rest) :=
      takeDigits_spec _ _ (digit_of_mem_natChars n) hrest
    show parseNum (natChars n ++ rest) = some (Int.ofNat n, rest)
    rw [hct] at htake ⊢
    simp only [List.cons_append, parseNum]
    rw [if_neg (digit_char_facts c0 hc0).2.2.2.2.2.2.2.1]
    rw [List.cons_append] at htake
    rw [htake]
    show some (((digitsVal (c0 :: t) : Nat) : Int), rest) = some (Int.ofNat n, rest)
    rw [← hct, digitsVal_natChars]
    rfl
  | negSucc m =>
    obtain ⟨c0, t, hct⟩ := natChars_cons (m + 1)
    have htake : takeDigits (natChars (m + 1) ++ rest) = (natChars (m + 1), rest) :=
      takeDigits_spec _ _ (digit_of_mem_natChars (m + 1)) hrest
    show parseNum (('-' :: natChars (m + 1)) ++ rest) = some (Int.negSucc m, rest)
    rw [hct] at htake ⊢
    simp only [List.cons_append, parseNum, if_pos]
    rw [List.cons_append] at htake
    rw [htake]
    show some (-((digitsVal (c0 :: t) : Nat) : Int), rest) = some (Int.negSucc m, rest)
    rw [← hct, digitsVal_natChars, Int.negSucc_eq]
    norm_num

/-! String literal round trip. -/

theorem escChar_safe (c : Char) (h : safeChar c) : escChar c = [c] := by
  obtain ⟨h1, h2, h3, h4, h5⟩ := h
  simp [escChar, h1, h2, h3, h4, h5]

theorem escList_safe (cs : List Char) (h : ∀ c ∈ cs, safeChar c) :
    (cs.map escChar).flatten = cs := by
  induction cs with
  | nil => rfl
  | cons c cs ih =>
    simp only [List.map_cons, List.flatten_cons]
    rw [escChar_safe c (h c (List.mem_cons_self _ _)),
      ih (fun x hx => h x (List.mem_cons_of_mem _ hx))]
    rfl

theorem escStr_safe (s : String) (h : safeStr s) : escStr s = s.data :=
  escList_safe s.data h

theorem parseStrChars_safe (cs rest : List Char) (h : ∀ c ∈ cs, safeChar c) :
    parseStrChars (cs ++ '"' :: rest) = some (cs, rest) := by
  induction cs with
  | nil =>
    rw [List.nil_append, parseStrChars.eq_def]
    simp
  | cons c cs' ih =>
    obtain ⟨h1, h2, _, _, _⟩ := h c (List.mem_cons_self _ _)
    rw [List.cons_append, parseStrChars.eq_def]
    simp only [h1, h2, ite_false, if_neg, if_false]
    rw [ih (fun x hx => h x (List.mem_cons_of_mem _ hx))]

theorem intChars_shape (i : Int) :
    ∃ c0 t, intChars i = c0 :: t ∧ (c0.isDigit = true ∨ c0 = '-') := by
  cases i with
  | ofNat n =>
    obtain ⟨c0, t, hct⟩ := natChars_cons n
    exact ⟨c0, t, hct,
      Or.inl (digit_of_mem_natChars n c0 (by rw [hct]; exact List.mem_cons_self _ _))⟩
  | negSucc m => exact ⟨'-', natChars (m + 1), rfl, Or.inr rfl⟩

theorem parseValue_num (i : Int) (f : Nat) (rest : List Char) (hf : 1 ≤ f)
    (hrest : ∀ c, rest.head? = some c → c.isDigit = false) :
    parseValue f (dumpChars (.num i) ++ rest) = some (.num i, rest) := by
  obtain ⟨g, rfl⟩ : ∃ g, f = g + 1 := ⟨f - 1, by omega⟩
  obtain ⟨c0, t, hct, hc0⟩ := intChars_shape i
  have hfacts : isWsChar c0 = false ∧ c0 ≠ '"' ∧ c0 ≠ '[' ∧ c0 ≠ '\x7b' ∧ c0 ≠ 'n' ∧
      c0 ≠ 't' ∧ c0 ≠ 'f' := by
    rcases hc0 with hd | rfl
    · have hh := digit_char_facts c0 hd
      exact ⟨hh.1, hh.2.1, hh.2.2.1, hh.2.2.2.1, hh.2.2.2.2.1, hh.2.2.2.2.2.1,
        hh.2.2.2.2.2.2.1⟩
    · have hh := minus_char_facts
      exact ⟨hh.1, hh.2.1, hh.2.2.1, hh.2.2.2.1, hh.2.2.2.2.1, hh.2.2.2.2.2.1,
        hh.2.2.2.2.2.2.1⟩
  show parseValue (g + 1) (intChars i ++ rest) = some (.num i, rest)
  rw [hct, List.cons_append, parseValue.eq_def]
  simp only []
  rw [skipWs_cons_not_ws c0 _ hfacts.1]
  simp only []
  rw [if_neg hfacts.2.1, if_neg hfacts.2.2.1, if_neg hfacts.2.2.2.1, if_neg hfacts.2.2.2.2.1,
    if_neg hfacts.2.2.2.2.2.1, if_neg hfacts.2.2.2.2.2.2]
  rw [← List.cons_append, ← hct, parseNum_intChars i rest hrest]

theorem parseValue_str (s : String) (f : Nat) (rest : List Char) (hf : 1 ≤ f)
    (hs : safeStr s) :
    parseValue f (dumpChars (.str s) ++ rest) = some (.str s, rest) := by
  obtain ⟨g, rfl⟩ : ∃ g, f = g + 1 := ⟨f - 1, by omega⟩
  show parseValue (g + 1) (('"' :: (escStr s ++ ['"'])) ++ rest) = _
  rw [escStr_safe s hs, List.cons_append, parseValue.eq_def]
  simp only []
  rw [skipWs_cons_not_ws '"' _ (by decide)]
  simp only [if_true]
  rw [List.append_assoc]
  simp only [List.singleton_append]
  rw [parseStrChars_safe s.data rest hs]

theorem parseValue_arr_nil (f : Nat) (rest : List Char) (hf : 1 ≤ f) :
    parseValue f (dumpChars (.arr []) ++ rest) = some (.arr [], rest) := by
  obtain ⟨g, rfl⟩ : ∃ g, f = g + 1 := ⟨f - 1, by omega⟩
  show parseValue (g + 1) ('[' :: ']' :: rest) = _
  rw [parseValue.eq_def]
  simp only []
  rw [skipWs_cons_not_ws '[' _ (by decide)]
  simp only [if_true]
  rw [skipWs_cons_not_ws ']' _ (by decide)]
  simp [List.head?]

theorem parseValue_obj_nil (f : Nat) (rest : List Char) (hf : 1 ≤ f) :
    parseValue f (dumpChars (.obj []) ++ rest) = some (.obj [], rest) := by
  obtain ⟨g, rfl⟩ : ∃ g, f = g + 1 := ⟨f - 1, by omega⟩
  show parseValue (g + 1) ('\x7b' :: '\x7d' :: rest) = _
  rw [parseValue.eq_def]
  simp only []
  rw [skipWs_cons_not_ws '\x7b' _ (by decide)]
  simp only [if_true]
  rw [skipWs_cons_not_ws '\x7d' _ (by decide)]
  simp [List.head?]

theorem parseArrItems_nums (ns : List Int) :
    ∀ (n : Int) (f : Nat) (rest : List Char), ns.length + 2 ≤ f →
      parseArrItems f (dumpChars (.num n) ++ (dumpArrRest (ns.map .num) ++ ']' :: rest)) =
        some ((n :: ns).map .num, rest) := by
  induction ns with
  | nil =>
    intro n f rest hf
    obtain ⟨g, rfl⟩ : ∃ g, f = g + 1 := ⟨f - 1, by omega⟩
    rw [parseArrItems.eq_def]
    simp only []
    rw [show dumpArrRest (List.map Json.num []) = [] from rfl, List.nil_append]
    rw [parseValue_num n g (']' :: rest) (by omega)
      (fun c hc => by simp at hc; subst hc; decide)]
    simp only []
    rw [skipWs_cons_not_ws ']' _ (by decide)]
    rfl
  | cons n2 ns' ih =>
    intro n f rest hf
    obtain ⟨g, rfl⟩ : ∃ g, f = g + 1 := ⟨f - 1, by omega⟩
    rw [parseArrItems.eq_def]
    simp only []
    rw [show dumpArrRest (List.map Json.num (n2 :: ns')) =
      ',' :: (dumpChars (.num n2) ++ dumpArrRest (List.map Json.num ns')) from rfl]
    simp only [List.cons_append, List.append_assoc]
    rw [parseValue_num n g _ (by omega)
      (fun c hc => by simp at hc; subst hc; decide)]
    simp only []
    rw [skipWs_cons_not_ws ',' _ (by decide)]
    simp only []
    rw [ih n2 g rest (by simp at hf; omega)]
    rfl

theorem parseValue_arrNums (ns : List Int) (f : Nat) (rest : List Char)
    (hf : ns.length + 3 ≤ f) :
    parseValue f (dumpChars (.arr (ns.map .num)) ++ rest) = some (.arr (ns.map .num), rest) := by
  cases ns with
  | nil => exact parseValue_arr_nil f rest (by omega)
  | cons n ns' =>
    obtain ⟨g, rfl⟩ : ∃ g, f = g + 1 := ⟨f - 1, by omega⟩
    obtain ⟨c0, t, hct, hc0⟩ := intChars_shape n
    have hfc : isWsChar c0 = false ∧ c0 ≠ ']' := by
      rcases hc0 with hd | rfl
      · have hh := digit_char_facts c0 hd
        exact ⟨hh.1, hh.2.2.2.2.2.2.2.2.1⟩
      · exact ⟨minus_char_facts.1, minus_char_facts.2.2.2.2.2.2.2.1⟩
    have hfold : (dumpChars (Json.num n) : List Char) = c0 :: t := hct
    rw [show dumpChars (.arr ((n :: ns').map Json.num)) =
      '[' :: (dumpChars (.num n) ++ dumpArrRest (ns'.map Json.num) ++ [']']) from rfl]
    rw [List.cons_append, parseValue.eq_def]
    simp only []
    rw [skipWs_cons_not_ws '[' _ (by decide)]
    simp only []
    rw [if_neg (show ¬('[' : Char) = '"' by decide), if_pos trivial]
    simp only [List.append_assoc, List.singleton_append]
    rw [hfold, List.cons_append, skipWs_cons_not_ws c0 _ hfc.1, ← List.cons_append, ← hfold]
    rw [if_neg (by rw [hfold]; simp [hfc.2])]
    rw [parseArrItems_nums ns' n g rest (by simp at hf; omega)]

theorem parseObjItems_fields (b : Nat) (fs : List (String × Json)) :
    ∀ (k : String) (v : Json) (f : Nat) (rest : List Char),
      fs.length + b + 1 ≤ f →
      safeStr k →
      (∀ g r2, b ≤ g → (r2.head? = some ',' ∨ r2.head? = some '\x7d') →
        parseValue g (dumpChars v ++ r2) = some (v, r2)) →
      (∀ kv ∈ fs, safeStr kv.1 ∧
        ∀ g r2, b ≤ g → (r2.head? = some ',' ∨ r2.head? = some '\x7d') →
          parseValue g (dumpChars kv.2 ++ r2) = some (kv.2, r2)) →
      parseObjItems f (dumpField (k, v) ++ (dumpObjRest fs ++ '\x7d' :: rest)) =
        some ((k, v) :: fs, rest) := by
  induction fs with
  | nil =>
    intro k v f rest hf hk hv hall
    obtain ⟨g, rfl⟩ : ∃ g, f = g + 1 := ⟨f - 1, by omega⟩
    rw [parseObjItems.eq_def]
    simp only []
    rw [show dumpField (k, v) = '"' :: (escStr k ++ '"' :: ':' :: dumpChars v) from rfl,
      escStr_safe k hk, show dumpObjRest [] = ([] : List Char) from rfl, List.nil_append,
      List.cons_append, skipWs_cons_not_ws '"' _ (by decide)]
    simp only []
    simp only [List.append_assoc, List.cons_append]
    rw [parseStrChars_safe k.data _ hk]
    simp only []
    rw [skipWs_cons_not_ws ':' _ (by decide)]
    simp only []
    rw [hv g _ (by omega) (Or.inr (by simp))]
    simp only []
    rw [skipWs_cons_not_ws '\x7d' _ (by decide)]
    rfl
  | cons kv fs' ih =>
    intro k v f rest hf hk hv hall
    obtain ⟨g, rfl⟩ : ∃ g, f = g + 1 := ⟨f - 1, by omega⟩
    obtain ⟨k2, v2⟩ := kv
    rw [parseObjItems.eq_def]
    simp only []
    rw [show dumpField (k, v) = '"' :: (escStr k ++ '"' :: ':' :: dumpChars v) from rfl,
      escStr_safe k hk,
      show dumpObjRest ((k2, v2) :: fs') =
        ',' :: (dumpField (k2, v2) ++ dumpObjRest fs') from rfl,
      List.cons_append, skipWs_cons_not_ws '"' _ (by decide)]
    simp only []
    simp only [List.append_assoc, List.cons_append]
    rw [parseStrChars_safe k.data _ hk]
    simp only []
    rw [skipWs_cons_not_ws ':' _ (by decide)]
    simp only []
    rw [hv g _ (by omega) (Or.inl (by simp))]
    simp only []
    rw [skipWs_cons_not_ws ',' _ (by decide)]
    simp only []
    rw [ih k2 v2 g rest (by simp at hf; omega) (hall (k2, v2) (List.mem_cons_self _ _)).1
      (hall (k2, v2) (List.mem_cons_self _ _)).2
      (fun x hx => hall x (List.mem_cons_of_mem _ hx))]

theorem setKey_append (d : Dict) (k : String) (v : Json) (h : ∀ kv ∈ d, kv.1 ≠ k) :
    setKey d k v = d ++ [(k, v)] := by
  induction d with
  | nil => rfl
  | cons kv' d' ih =>
    obtain ⟨k', v'⟩ := kv'
    rw [setKey, if_neg (h (k', v') (List.mem_cons_self _ _)), List.cons_append,
      ih (fun x hx => h x (List.mem_cons_of_mem _ hx))]

theorem dictUpdate_eq_append (fs : Dict) :
    ∀ acc : Dict, (acc.map Prod.fst ++ fs.map Prod.fst).Nodup → dictUpdate acc fs = acc ++ fs := by
  induction fs with
  | nil => intro acc _; simp [dictUpdate]
  | cons kv fs' ih =>
    intro acc h
    obtain ⟨k, v⟩ := kv
    have hdisj : ∀ x ∈ acc, x.1 ≠ k := by
      intro x hx hcon
      rw [List.nodup_append] at h
      exact h.2.2 (List.mem_map_of_mem Prod.fst hx)
        (by rw [hcon]; simp)
    rw [dictUpdate_cons, setKey_append acc k v hdisj, ih (acc ++ [(k, v)])
      (by simpa [List.append_assoc] using h)]
    simp

theorem dictUpdate_nil_nodup (fs : Dict) (h : (fs.map Prod.fst).Nodup) :
    dictUpdate [] fs = fs := by
  simpa using dictUpdate_eq_append fs [] (by simpa using h)

theorem parseValue_obj_fields (b : Nat) (fields : List (String × Json)) (f : Nat)
    (rest : List Char) (hf : fields.length + b + 3 ≤ f)
    (hall : ∀ kv ∈ fields, safeStr kv.1 ∧
      ∀ g r2, b ≤ g → (r2.head? = some ',' ∨ r2.head? = some '\x7d') →
        parseValue g (dumpChars kv.2 ++ r2) = some (kv.2, r2))
    (hnd : (fields.map Prod.fst).Nodup) :
    parseValue f (dumpChars (.obj fields) ++ rest) = some (.obj fields, rest) := by
  cases fields with
  | nil => exact parseValue_obj_nil f rest (by omega)
  | cons kv fs' =>
    obtain ⟨g, rfl⟩ : ∃ g, f = g + 1 := ⟨f - 1, by omega⟩
    obtain ⟨k, v⟩ := kv
    rw [show dumpChars (.obj ((k, v) :: fs')) =
      '\x7b' :: (dumpField (k, v) ++ dumpObjRest fs' ++ ['\x7d']) from rfl]
    rw [List.cons_append, parseValue.eq_def]
    simp only []
    rw [skipWs_cons_not_ws '\x7b' _ (by decide)]
    simp only []
    rw [if_neg (show ¬('\x7b' : Char) = '"' by decide),
      if_neg (show ¬('\x7b' : Char) = '[' by decide), if_pos trivial]
    simp only [List.append_assoc, List.singleton_append]
    rw [show dumpField (k, v) = '"' :: (escStr k ++ '"' :: ':' :: dumpChars v) from rfl,
      List.cons_append, skipWs_cons_not_ws '"' _ (by decide), ← List.cons_append,
      ← show dumpField (k, v) = '"' :: (escStr k ++ '"' :: ':' :: dumpChars v) from rfl]
    rw [if_neg (by
      rw [show dumpField (k, v) = '"' :: (escStr k ++ '"' :: ':' :: dumpChars v) from rfl]
      simp)]
    rw [parseObjItems_fields b fs' k v g rest (by simp at hf; omega)
      (hall (k, v) (List.mem_cons_self _ _)).1 (hall (k, v) (List.mem_cons_self _ _)).2
      (fun x hx => hall x (List.mem_cons_of_mem _ hx))]
    simp only []
    rw [dictUpdate_nil_nodup _ hnd]

theorem safe_of_digit (c : Char) (h : c.isDigit = true) : safeChar c :=
  (digit_char_facts c h).2.2.2.2.2.2.2.2.2.2.2.2

theorem head_sep_nondigit (r2 : List Char)
    (hh : r2.head? = some ',' ∨ r2.head? = some '\x7d') :
    ∀ ch, r2.head? = some ch → ch.isDigit = false := by
  intro ch hch
  rcases hh with h | h <;> rw [h] at hch <;> injection hch with he <;> rw [← he] <;> decide

theorem pyInt_isSome_safe (k : String) (h : (pyInt k).isSome = true) : safeStr k := by
  intro c hc
  unfold pyInt at h
  cases hk : k.data with
  | nil => rw [hk] at h hc; exact absurd hc (by simp)
  | cons c0 ds =>
    rw [hk] at h hc
    simp only [] at h
    by_cases h0 : c0 = '-'
    · rw [if_pos h0] at h
      by_cases hd : (!ds.isEmpty && ds.all (·.isDigit)) = true
      · rcases List.mem_cons.mp hc with rfl | hcm
        · rw [h0]; exact ⟨by decide, by decide, by decide, by decide, by decide⟩
        · exact safe_of_digit c
            (by simpa using (List.all_eq_true.mp (Bool.and_elim_right hd)) c hcm)
      · rw [if_neg hd] at h; exact absurd h (by simp)
    · rw [if_neg h0] at h
      by_cases h1 : c0 = '+'
      · rw [if_pos h1] at h
        by_cases hd : (!ds.isEmpty && ds.all (·.isDigit)) = true
        · rcases List.mem_cons.mp hc with rfl | hcm
          · rw [h1]; exact ⟨by decide, by decide, by decide, by decide, by decide⟩
          · exact safe_of_digit c
              (by simpa using (List.all_eq_true.mp (Bool.and_elim_right hd)) c hcm)
        · rw [if_neg hd] at h; exact absurd h (by simp)
      · rw [if_neg h1] at h
        by_cases hd : ((c0 :: ds).all (·.isDigit)) = true
        · exact safe_of_digit c (by simpa using (List.all_eq_true.mp hd) c hc)
        · rw [if_neg hd] at h; exact absurd h (by simp)

theorem parseValue_message (c : Int) (sn : String) (B : Json) (bB f : Nat) (rest : List Char)
    (hsn : ∀ ch ∈ sn.data, ch.isDigit = true)
    (hB : ∀ g r2, bB ≤ g → (r2.head? = some ',' ∨ r2.head? = some '\x7d') →
      parseValue g (dumpChars B ++ r2) = some (B, r2))
    (hbB : 1 ≤ bB) (hf : bB + 7 ≤ f) :
    parseValue f
        (dumpChars (.obj [("pv", .num 0), ("cmd", .num c), ("sn", .str sn), ("msg", B)]) ++ rest) =
      some (.obj [("pv", .num 0), ("cmd", .num c), ("sn", .str sn), ("msg", B)], rest) := by
  apply parseValue_obj_fields bB _ f rest (by simp; omega)
  · intro kv hkv
    rcases List.mem_cons.mp hkv with rfl | hkv
    · exact ⟨(by decide : safeStr "pv"),
        fun g r2 hg hh => parseValue_num 0 g r2 (by omega) (head_sep_nondigit r2 hh)⟩
    rcases List.mem_cons.mp hkv with rfl | hkv
    · exact ⟨(by decide : safeStr "cmd"),
        fun g r2 hg hh => parseValue_num c g r2 (by omega) (head_sep_nondigit r2 hh)⟩
    rcases List.mem_cons.mp hkv with rfl | hkv
    · exact ⟨(by decide : safeStr "sn"),
        fun g r2 hg _ => parseValue_str sn g r2 (by omega)
          (fun x hx => safe_of_digit x (hsn x hx))⟩
    rcases List.mem_cons.mp hkv with rfl | hkv
    · exact ⟨(by decide : safeStr "msg"), fun g r2 hg hh => hB g r2 hg hh⟩
    · exact absurd hkv (List.not_mem_nil kv)
  · simp

theorem parseValue_queryMsg :
    ∀ g r2, 8 ≤ g →
      parseValue g (dumpChars (.obj [("attr", .arr [.num 0])]) ++ r2) =
        some (.obj [("attr", .arr [.num 0])], r2) := by
  intro g r2 hg
  apply parseValue_obj_fields 4 [("attr", .arr [.num 0])] g r2 (by simp; omega)
  · intro kv hkv
    rcases List.mem_cons.mp hkv with rfl | hkv
    · exact ⟨(by decide : safeStr "attr"),
        fun g' r2' hg' _ => parseValue_arrNums [0] g' r2' (by simpa using hg')⟩
    · exact absurd hkv (List.not_mem_nil kv)
  · simp

theorem parseValue_setMsg (attrs : List Int) (payload : Dict)
    (hkeys : ∀ kv ∈ payload, safeStr kv.1)
    (hvals : ∀ kv ∈ payload, ∃ m : Int, kv.2 = .num m)
    (hnd : (payload.map Prod.fst).Nodup) :
    ∀ g r2, attrs.length + payload.length + 9 ≤ g →
      parseValue g
          (dumpChars (.obj [("attr", .arr (attrs.map .num)), ("data", .obj payload)]) ++ r2) =
        some (.obj [("attr", .arr (attrs.map .num)), ("data", .obj payload)], r2) := by
  intro g r2 hg
  apply parseValue_obj_fields (attrs.length + payload.length + 4) _ g r2 (by simp; omega)
  · intro kv hkv
    rcases List.mem_cons.mp hkv with rfl | hkv
    · exact ⟨(by decide : safeStr "attr"),
        fun g' r2' hg' _ => parseValue_arrNums attrs g' r2' (by omega)⟩
    rcases List.mem_cons.mp hkv with rfl | hkv
    · refine ⟨(by decide : safeStr "data"),
        fun g' r2' hg' _ => parseValue_obj_fields 1 payload g' r2' (by omega) ?_ hnd⟩
      intro kv2 hkv2
      obtain ⟨m, hm⟩ := hvals kv2 hkv2
      exact ⟨hkeys kv2 hkv2, fun g2 r3 hg2 hh2 => by
        rw [hm]
        exact parseValue_num m g2 r3 (by omega) (head_sep_nondigit r3 hh2)⟩
    · exact absurd hkv (List.not_mem_nil kv)
  · simp

theorem loads_dumps (M : Json) (B : Nat)
    (hp : ∀ f rest, B ≤ f → parseValue f (dumpChars M ++ rest) = some (M, rest))
    (hlen : B ≤ 2 * (dumpChars M).length + 4) :
    loads (dumps M) = some M := by
  unfold loads
  have hp' := hp (2 * (dumps M).length + 4) []
    (by rw [show (dumps M).length = (dumpChars M).length from rfl]; omega)
  rw [List.append_nil] at hp'
  rw [show (dumps M).data = dumpChars M from rfl, hp']
  rfl

theorem len_dumpObjRest_ge (fs : List (String × Json)) :
    fs.length ≤ (dumpObjRest fs).length := by
  induction fs with
  | nil => simp [dumpObjRest]
  | cons f fs' ih =>
    rw [show dumpObjRest (f :: fs') = ',' :: (dumpField f ++ dumpObjRest fs') from rfl]
    simp only [List.length_cons, List.length_append]
    omega

theorem len_dumpField_ge (kv : String × Json) :
    3 + (dumpChars kv.2).length ≤ (dumpField kv).length := by
  obtain ⟨k, v⟩ := kv
  rw [show dumpField (k, v) = '"' :: (escStr k ++ '"' :: ':' :: dumpChars v) from rfl]
  simp only [List.length_cons, List.length_append]
  omega

theorem len_obj_ge (fs : List (String × Json)) :
    fs.length + 2 ≤ (dumpChars (.obj fs)).length := by
  cases fs with
  | nil => simp [dumpChars]
  | cons f fs' =>
    rw [show dumpChars (.obj (f :: fs')) =
      '\x7b' :: (dumpField f ++ dumpObjRest fs' ++ ['\x7d']) from rfl]
    have h1 := len_dumpField_ge f
    have h2 := len_dumpObjRest_ge fs'
    simp only [List.length_cons, List.length_append]
    omega

theorem len_objRest_ge_member (fs : List (String × Json)) (kv : String × Json)
    (h : kv ∈ fs) : (dumpChars kv.2).length + fs.length ≤ (dumpObjRest fs).length := by
  induction fs with
  | nil => exact absurd h (List.not_mem_nil kv)
  | cons f fs' ih =>
    rw [show dumpObjRest (f :: fs') = ',' :: (dumpField f ++ dumpObjRest fs') from rfl]
    simp only [List.length_cons, List.length_append]
    rcases List.mem_cons.mp h with rfl | hm
    · have h1 := len_dumpField_ge kv
      have h2 := len_dumpObjRest_ge fs'
      omega
    · have h1 := ih hm
      omega

theorem len_obj_ge_member (fs : List (String × Json)) (kv : String × Json)
    (h : kv ∈ fs) :
    (dumpChars kv.2).length + fs.length + 2 ≤ (dumpChars (.obj fs)).length := by
  cases fs with
  | nil => exact absurd h (List.not_mem_nil kv)
  | cons f fs' =>
    rw [show dumpChars (.obj (f :: fs')) =
      '\x7b' :: (dumpField f ++ dumpObjRest fs' ++ ['\x7d']) from rfl]
    simp only [List.length_cons, List.length_append]
    rcases List.mem_cons.mp h with rfl | hm
    · have h1 := len_dumpField_ge kv
      have h2 := len_dumpObjRest_ge fs'
      omega
    · have h1 := len_objRest_ge_member fs' kv hm
      have h2 := len_dumpField_ge f
      omega

theorem mapM_option_length {α β : Type} (g : α → Option β) :
    ∀ (l : List α) (l' : List β), l.mapM g = some l' → l'.length = l.length := by
  intro l
  induction l with
  | nil =>
    intro l' h
    simp only [List.mapM_nil, pure, Option.some.injEq] at h
    rw [← h]
    rfl
  | cons a l ih =>
    intro l' h
    rw [List.mapM_cons] at h
    cases ha : g a with
    | none => rw [ha] at h; exact absurd h (by simp)
    | some b =>
      rw [ha] at h
      cases hl : l.mapM g with
      | none => rw [hl] at h; exact absurd h (by simp)
      | some bs =>
        rw [hl] at h
        simp only [Option.bind_eq_bind, Option.some_bind, pure, Option.some.injEq] at h
        rw [← h]
        simp [ih bs hl]

theorem mapM_option_mem_isSome {α β : Type} (g : α → Option β) :
    ∀ (l : List α) (l' : List β), l.mapM g = some l' → ∀ a ∈ l, (g a).isSome = true := by
  intro l
  induction l with
  | nil => intro l' _ a ha; exact absurd ha (List.not_mem_nil a)
  | cons a l ih =>
    intro l' h x hx
    rw [List.mapM_cons] at h
    cases ha : g a with
    | none => rw [ha] at h; exact absurd h (by simp)
    | some b =>
      cases hl : l.mapM g with
      | none => rw [ha, hl] at h; exact absurd h (by simp)
      | some bs =>
        rcases List.mem_cons.mp hx with rfl | hm
        · simp [ha]
        · exact ih bs hl x hm

/-- C6: for each cmd in `{info, query, set}` and every payload of the
appropriate shape (integer-string keys as `int()` accepts them, unique as
in any Python dict, integer values), JSON-parsing the frame produced by
`_get_package` — its trailing CRLF removed, i.e. the `dumps m` part of
the frame `dumps m ++ "\r\n"` — recovers exactly the built message:
the same `cmd` and the prescribed body.  `info` yields `msg = {}`,
`query` yields `msg = {attr: [0]}`, and `set` yields a `msg` whose
`attr` is the integer conversions of the payload's keys and whose `data`
equals the payload. -/
theorem c6_framing_roundtrip (sn : String) (payload : Dict) (attrs : List Int)
    (hsn : snWellFormed sn)
    (hvals : ∀ kv ∈ payload, ∃ m : Int, kv.2 = .num m)
    (hnd : (payload.map Prod.fst).Nodup)
    (hattrs : payload.mapM (fun kv => pyInt kv.1) = some attrs) :
    (∃ m, packageJson sn CMD_INFO payload = some m ∧
      getPackage sn CMD_INFO payload = some (dumps m ++ "\r\n") ∧
      loads (dumps m) = some m ∧
      objGet m "cmd" = some (.num 0) ∧ objGet m "msg" = some (.obj [])) ∧
    (∃ m, packageJson sn CMD_QUERY payload = some m ∧
      getPackage sn CMD_QUERY payload = some (dumps m ++ "\r\n") ∧
      loads (dumps m) = some m ∧
      objGet m "cmd" = some (.num 2) ∧
      objGet m "msg" = some (.obj [("attr", .arr [.num 0])])) ∧
    (∃ m, packageJson sn CMD_SET payload = some m ∧
      getPackage sn CMD_SET payload = some (dumps m ++ "\r\n") ∧
      loads (dumps m) = some m ∧
      objGet m "cmd" = some (.num 3) ∧
      objGet m "msg" =
        some (.obj [("attr", .arr (attrs.map .num)), ("data", .obj payload)])) := by
  have hdig : ∀ ch ∈ sn.data, ch.isDigit = true := hsn.2
  refine ⟨?_, ?_, ?_⟩
  · refine ⟨Json.obj [("pv", .num 0), ("cmd", .num 0), ("sn", .str sn), ("msg", .obj [])],
      rfl, rfl, ?_, by simp [objGet, dictGet], by simp [objGet, dictGet]⟩
    apply loads_dumps _ 8
    · exact fun f rest hf => parseValue_message 0 sn (.obj []) 1 f rest hdig
        (fun g r2 hg _ => parseValue_obj_nil g r2 hg) (by omega) (by omega)
    · have h6 := len_obj_ge
        [("pv", Json.num 0), ("cmd", Json.num 0), ("sn", Json.str sn), ("msg", Json.obj [])]
      omega
  · refine ⟨Json.obj [("pv", .num 0), ("cmd", .num 2), ("sn", .str sn),
      ("msg", .obj [("attr", .arr [.num 0])])],
      rfl, rfl, ?_, by simp [objGet, dictGet], by simp [objGet, dictGet]⟩
    apply loads_dumps _ 15
    · exact fun f rest hf => parseValue_message 2 sn _ 8 f rest hdig
        (fun g r2 hg _ => parseValue_queryMsg g r2 hg) (by omega) (by omega)
    · have h6 := len_obj_ge [("pv", Json.num 0), ("cmd", Json.num 2), ("sn", Json.str sn),
        ("msg", Json.obj [("attr", Json.arr [Json.num 0])])]
      simp only [List.length_cons, List.length_nil] at h6
      omega
  · have hkeys : ∀ kv ∈ payload, safeStr kv.1 := fun kv hkv =>
      pyInt_isSome_safe kv.1 (mapM_option_mem_isSome _ payload attrs hattrs kv hkv)
    have hlen2 : attrs.length = payload.length := mapM_option_length _ payload attrs hattrs
    have hpkg : packageJson sn CMD_SET payload =
        some (Json.obj [("pv", .num 0), ("cmd", .num 3), ("sn", .str sn),
          ("msg", .obj [("attr", .arr (attrs.map .num)), ("data", .obj payload)])]) := by
      unfold packageJson
      rw [if_pos rfl, hattrs]
      rfl
    refine ⟨Json.obj [("pv", .num 0), ("cmd", .num 3), ("sn", .str sn),
      ("msg", .obj [("attr", .arr (attrs.map .num)), ("data", .obj payload)])],
      hpkg, ?_, ?_, by simp [objGet, dictGet], by simp [objGet, dictGet]⟩
    · rw [getPackage, hpkg]
      rfl
    · apply loads_dumps _ (attrs.length + payload.length + 16)
      · exact fun f rest hf => parseValue_message 3 sn _
          (attrs.length + payload.length + 9) f rest hdig
          (fun g r2 hg _ => parseValue_setMsg attrs payload hkeys hvals hnd g r2 hg)
          (by omega) (by omega)
      · have h1 := len_obj_ge_member
          [("pv", Json.num 0), ("cmd", Json.num 3), ("sn", Json.str sn),
            ("msg", Json.obj [("attr", Json.arr (attrs.map Json.num)),
              ("data", Json.obj payload)])]
          ("msg", Json.obj [("attr", Json.arr (attrs.map Json.num)),
            ("data", Json.obj payload)]) (by simp)
        have h2 := len_obj_ge_member
          [("attr", Json.arr (attrs.map Json.num)), ("data", Json.obj payload)]
          ("data", Json.obj payload) (by simp)
        have h3 := len_obj_ge payload
        simp only [List.length_cons, List.length_nil] at h1 h2
        omega

/-- Witness for C6 at the concrete token `1700` and payload
`{"1": 0}` (the set conjunct; the info and query conjuncts hold for the
same instantiation). -/
theorem c6_witness :
    ∃ m, packageJson "1700" CMD_SET [("1", Json.num 0)] = some m ∧
      getPackage "1700" CMD_SET [("1", Json.num 0)] = some (dumps m ++ "\r\n") ∧
      loads (dumps m) = some m ∧
      objGet m "cmd" = some (.num 3) ∧
      objGet m "msg" =
        some (.obj [("attr", .arr ([1].map .num)), ("data", .obj [("1", Json.num 0)])]) :=
  (c6_framing_roundtrip "1700" [("1", Json.num 0)] [1] ⟨by decide, by decide⟩
    (fun kv hkv => by
      simp only [List.mem_singleton] at hkv
      rw [hkv]
      exact ⟨0, rfl⟩)
    (by decide) (by decide)).2.2
